import Mathlib

/-
Shallow embedding of the go-storage library (github.com/kevinangkajaya/go-storage):
a storage abstraction with a local dual-tree backend, an AWS S3 multipart backend
and an Alibaba OSS backend.  Definitions are translated from the Go sources
(storage.go, storage_s3.go, storage_oss.go, storage_local.go); machine state that
the Go code reaches through the filesystem or the network (directory trees,
multipart sessions) is made explicit.  The embedding models the linux build of
the library (runtime.GOOS == "linux" branches).
-/

/-! ## Shared value types (storage.go)

`ObjectVisibility` is a Go string type with three recognized constants; it is
modeled as `String`. -/

def ObjectPrivate : String := "private"

def ObjectPublicReadWrite : String := "public-read-write"

def ObjectPublicRead : String := "public-read"

/-! ## Path normalizer

The backends normalize client paths with `path.Clean(filepath.ToSlash(p))`
(`cleanS3ObjectPath`, `cleanOSSObjectPath`), and the local backend resolves
object paths with `filepath.Join(baseDir, objectPath)`, which equals
`path.Clean(baseDir + "/" + objectPath)` on linux for non-empty arguments.
Go's `path.Clean` is implemented below segment-wise: splitting on `/` and
processing the segments left to right is exactly the lazybuf algorithm of
`path.Clean` (empty and `.` segments are dropped, `..` pops a poppable
element, is dropped at the root of a rooted path, and is kept otherwise).
String splitting and joining are defined by structural recursion on the
character list so that concrete keys evaluate inside the kernel. -/

/-- Model of `filepath.ToSlash`: every `\` separator is replaced by `/`
(the identity on paths that contain no backslash, as on linux). -/
def goToSlash (p : String) : String :=
  String.mk (p.data.map (fun c => if c = '\\' then '/' else c))

/-- Splitting a character list on `/` (the segment decomposition used by
`path.Clean`; same behavior as `strings.Split(p, "/")`). -/
def splitSlashAux : List Char → List Char → List String
  | [], cur => [String.mk cur.reverse]
  | c :: rest, cur =>
    if c = '/' then String.mk cur.reverse :: splitSlashAux rest []
    else splitSlashAux rest (c :: cur)

/-- The `/`-separated segments of a path string. -/
def splitSlash (p : String) : List String :=
  splitSlashAux p.data []

/-- Joining segments with `/` (inverse of `splitSlash` on segment lists). -/
def joinSlash : List String → String
  | [] => ("")
  | [s] => s
  | s :: t :: rest => s ++ ("/") ++ joinSlash (t :: rest)

/-- Whether the path is rooted (begins with `/`). -/
def isRooted (p : String) : Bool :=
  p.data.head? = some '/'

/-- One step of Go's `path.Clean` lazybuf algorithm, acting on the list of
already-output segments `acc` when reading segment `s`. -/
def cleanStep (rooted : Bool) (acc : List String) (s : String) : List String :=
  if s = "" ∨ s = "." then acc
  else if s = ".." then
    if acc ≠ [] ∧ acc.getLast? ≠ some ".." then acc.dropLast
    else if rooted then acc
    else acc ++ [".."]
  else acc ++ [s]

/-- Segment-level core of Go's `path.Clean`. -/
def goCleanSegs (rooted : Bool) (segs : List String) : List String :=
  segs.foldl (cleanStep rooted) []

/-- Reassemble the cleaned segments into a path string, as `path.Clean` does:
an empty result is `/` (rooted) or `.`, otherwise the segments joined by `/`
with a leading `/` when rooted. -/
def assembleSegs (rooted : Bool) (out : List String) : String :=
  if out = [] then (if rooted then ("/") else ("."))
  else (if rooted then ("/") else ("")) ++ joinSlash out

/-- The cleaned segment list of a path (helper for `goPathClean`). -/
def goPathCleanSegs (p : String) : List String :=
  goCleanSegs (isRooted p) (splitSlash p)

/-- Model of Go's `path.Clean`. -/
def goPathClean (p : String) : String :=
  if p = "" then (".")
  else assembleSegs (isRooted p) (goPathCleanSegs p)

/-- Model of Go's `path.Join`: the non-empty elements are joined with `/` and
the result is cleaned (`path.Join` cleans the joined string, so dropping empty
elements before joining is equivalent). -/
def goPathJoin (elems : List String) : String :=
  let parts := elems.filter (fun s => s ≠ "")
  if parts = [] then ("") else goPathClean (joinSlash parts)

/-- `cleanS3ObjectPath` from storage_s3.go: `path.Clean(filepath.ToSlash(objectPath))`. -/
def cleanS3ObjectPath (objectPath : String) : String :=
  goPathClean (goToSlash objectPath)

/-- `cleanOSSObjectPath` from storage_oss.go: `path.Clean(filepath.ToSlash(objectPath))`. -/
def cleanOSSObjectPath (objectPath : String) : String :=
  goPathClean (goToSlash objectPath)

/-- Segment list of the file path the local backend touches for an object:
`filepath.Join(baseDir, objectPath)` equals `path.Clean(baseDir ++ "/" ++ objectPath)`
on linux, and splitting that concatenation on `/` yields the concatenation of the
two splits, so the cleaned segments can be computed from the two parts directly. -/
def localFilePathSegs (baseDir objectPath : String) : List String :=
  goCleanSegs (isRooted baseDir) (splitSlash baseDir ++ splitSlash objectPath)

/-- The file path the local backend touches for an object
(`filepath.Join(baseDir, objectPath)` on linux, for non-empty `baseDir`). -/
def localFilePath (baseDir objectPath : String) : String :=
  if baseDir = "" then goPathClean objectPath
  else if objectPath = "" then goPathClean baseDir
  else assembleSegs (isRooted baseDir) (localFilePathSegs baseDir objectPath)

/-! ## S3 multipart upload engine (storage_s3.go)

`storageS3.Put` opens a multipart session, reads the source in chunks of
`s3PartSize` bytes, submits every non-empty chunk as one part through
`uploadMultipart` (which retries up to `maxRetry` attempts with a fixed
2-second sleep between attempts), and finally calls
`CompleteMultipartUpload` with the accumulated completed-part list.
The network is modeled by an `S3Env` giving the result of each SDK call, and
each run returns the list of calls performed (the event trace) together with
the returned `error` (`Option String`, `none` for nil). -/

/-- `maxRetry` from storage_s3.go: maximum retry for uploading a part. -/
def maxRetry : Nat := 3

/-- `s3PartSize` from storage_s3.go: `5120 * 1024` bytes, the minimum S3 part size. -/
def s3PartSize : Nat := 5120 * 1024

/-- Outcome of one `source.Read(buffer)` call: `ok` is a nil error, `eof` is
`io.EOF`, `fail` is any other read error. -/
inductive ReadErr where
  | ok
  | eof
  | fail (msg : String)
deriving DecidableEq

/-- One `source.Read(buffer)` result: the byte count and the error value. -/
structure ReadRes where
  n : Nat
  err : ReadErr
deriving DecidableEq

/-- Observable remote calls made by `storageS3.Put` (the event trace). -/
inductive S3Event where
  | createCalled (key : String)
  | uploadAttempt (part : Nat) (size : Nat) (attempt : Nat)
  | sleptRetryDelay (seconds : Nat)
  | abortCalled
  | completeCalled (parts : List (Option (Nat × String)))
deriving DecidableEq

/-- The remote store's behavior during one `Put`: results of
`CreateMultipartUpload`, `UploadPart` (per part number and attempt index),
`AbortMultipartUpload` and `CompleteMultipartUpload`.  `Except.error` is a
non-nil SDK error. -/
structure S3Env where
  createResult : Except String Unit
  upload : Nat → Nat → Except String String
  abortResult : Except String Unit
  completeResult : Except String Unit

/-- `uploadMultipart` from storage_s3.go: the retry loop `for retry < maxRetry`.
The first argument of the recursion is `maxRetry - retry` (the number of
remaining loop iterations), the second is the current `retry` counter, so the
structure mirrors the Go loop: a successful `UploadPart` returns the completed
part, a failed one increments `retry`, returns the error when `retry >= maxRetry`
and otherwise sleeps 2 seconds and retries.  The value `.ok none` is the Go
`return nil, nil` after the loop (unreachable when entered with `retry = 0`). -/
def uploadMultipart (upload : Nat → Except String String) (part size : Nat) :
    Nat → Nat → List S3Event × Except String (Option String)
  | 0, _ => ([], .ok none)
  | 1, retry =>
    match upload retry with
    | .ok etag => ([.uploadAttempt part size retry], .ok (some etag))
    | .error e => ([.uploadAttempt part size retry], .error e)
  | remaining + 2, retry =>
    match upload retry with
    | .ok etag => ([.uploadAttempt part size retry], .ok (some etag))
    | .error _e =>
      let r := uploadMultipart upload part size (remaining + 1) (retry + 1)
      (.uploadAttempt part size retry :: .sleptRetryDelay 2 :: r.1, r.2)

namespace storageS3

/-- `getS3ACLOrError` from storage_s3.go: translates the visibility string to a
canned ACL, or returns the input-validation error. -/
def getS3ACLOrError (visibility : String) : Except String String :=
  if visibility = ObjectPublicRead then .ok ("public-read")
  else if visibility = ObjectPublicReadWrite then .ok ("public-read-write")
  else if visibility = ObjectPrivate then .ok ("private")
  else .error (("err invalid object visibility: ") ++ visibility)

/-- The chunk loop of `storageS3.Put`, iterating over the successive results of
`source.Read`: a read error other than `io.EOF` aborts the session (returning
the abort error if the abort itself fails, otherwise the read error); a read of
zero bytes leaves the loop and issues `CompleteMultipartUpload` with the
accumulated part list; otherwise the chunk is submitted via `uploadMultipart`
with the current part number, a failed submission aborts the session, and a
successful one appends the completed part and increments the part number. -/
def putLoop (env : S3Env) : List ReadRes → Nat → List (Option (Nat × String)) →
    List S3Event × Option String
  | [], _, parts =>
    ([.completeCalled parts],
      match env.completeResult with
      | .error e => some e
      | .ok _ => none)
  | r :: rest, partNumber, parts =>
    match r.err with
    | .fail msg =>
      match env.abortResult with
      | .error ae => ([.abortCalled], some ae)
      | .ok _ => ([.abortCalled], some msg)
    | _ =>
      if r.n = 0 then
        ([.completeCalled parts],
          match env.completeResult with
          | .error e => some e
          | .ok _ => none)
      else
        match uploadMultipart (fun a => env.upload partNumber a) partNumber r.n maxRetry 0 with
        | (evs, .error e) =>
          match env.abortResult with
          | .error ae => (evs ++ [.abortCalled], some ae)
          | .ok _ => (evs ++ [.abortCalled], some e)
        | (evs, .ok etagOpt) =>
          let r2 := putLoop env rest (partNumber + 1)
            (parts ++ [etagOpt.map (fun t => (partNumber, t))])
          (evs ++ r2.1, r2.2)

/-- `storageS3.Put` from storage_s3.go: cleans the object path, translates the
visibility (returning before any remote call on failure), opens the multipart
session and runs the chunk loop starting at part number 1 with an empty
completed-part list. -/
def Put (env : S3Env) (objectPath : String) (source : List ReadRes)
    (visibility : String) : List S3Event × Option String :=
  let key := cleanS3ObjectPath objectPath
  match getS3ACLOrError visibility with
  | .error e => ([], some e)
  | .ok _ =>
    match env.createResult with
    | .error e => ([.createCalled key], some e)
    | .ok _ =>
      let r := putLoop env source 1 []
      (.createCalled key :: r.1, r.2)

end storageS3

/-- The successive chunk sizes produced by reading a source of `total` bytes
through a buffer of `s3PartSize` bytes (each read fills the buffer until the
source is exhausted).  The first argument is recursion fuel, always called with
`fuel = total`. -/
def s3ChunksAux : Nat → Nat → List Nat
  | 0, _ => []
  | fuel + 1, total =>
    if total = 0 then []
    else min s3PartSize total :: s3ChunksAux fuel (total - min s3PartSize total)

/-- Chunk sizes of a `total`-byte source read through the `s3PartSize` buffer. -/
def s3Chunks (total : Nat) : List Nat :=
  s3ChunksAux total total

/-- The read results produced by a well-behaved source delivering the given
chunks and then reporting end of stream with a zero-length read. -/
def readsOf (chunks : List Nat) : List ReadRes :=
  chunks.map (fun c => { n := c, err := .ok }) ++ [{ n := 0, err := .eof }]

/-- Part numbering starting at `start`: pairs each chunk with its part number. -/
def numbered (start : Nat) : List Nat → List (Nat × Nat)
  | [] => []
  | c :: rest => (start, c) :: numbered (start + 1) rest

/-- An S3 environment in which every remote call succeeds and `UploadPart`
returns the integrity tag `e part` on the first attempt for part `part`. -/
def envOk (e : Nat → String) : S3Env :=
  { createResult := .ok ()
    upload := fun part _ => .ok (e part)
    abortResult := .ok ()
    completeResult := .ok () }


/-- An S3 environment in which session management succeeds and `UploadPart`
fails with `e1` on the first attempt, `e2` on the second, and returns `r3`
on the third attempt, for every part. -/
def envRetry (e1 e2 : String) (r3 : Except String String) : S3Env :=
  { createResult := .ok ()
    upload := fun _ a => if a = 0 then .error e1 else if a = 1 then .error e2 else r3
    abortResult := .ok ()
    completeResult := .ok () }

/-! ## Alibaba OSS backend (storage_oss.go) -/

/-- `getACLOSSOrError` from storage_oss.go. -/
def getACLOSSOrError (visibility : String) : Except String String :=
  if visibility = ObjectPublicRead then .ok ("public-read")
  else if visibility = ObjectPublicReadWrite then .ok ("public-read-write")
  else if visibility = ObjectPrivate then .ok ("private")
  else .error (("err invalid object visibility: ") ++ visibility)

/-- Remote call made by the OSS `Put` (its event trace has at most one entry). -/
inductive OSSEvent where
  | putObjectCalled (key : String) (acl : String)
deriving DecidableEq

namespace storageAlibabaOSS

/-- `storageAlibabaOSS.Put` from storage_oss.go: translates the visibility
(returning the input-validation error before any remote call on failure) and
then issues one `PutObject` with the cleaned key; `putObjectResult` is the
error returned by the remote call. -/
def Put (putObjectResult : Option String) (objectPath : String)
    (visibility : String) : List OSSEvent × Option String :=
  match getACLOSSOrError visibility with
  | .error e => ([], some e)
  | .ok acl => ([.putObjectCalled (cleanOSSObjectPath objectPath) acl], putObjectResult)

end storageAlibabaOSS

/-! ## S3 visibility read-back (storage_s3.go `GetVisibility`) -/

/-- The all-users grantee group URI checked by `storageS3.GetVisibility`. -/
def s3AllUsersURI : String := "http://acs.amazonaws.com/groups/global/AllUsers"

/-- One ACL grant as returned by `GetObjectAcl`: the grantee group URI and the
permission string. -/
structure S3Grant where
  granteeURI : String
  permission : String
deriving DecidableEq

/-- The grant loop of `storageS3.GetVisibility`: scans the grants, setting
`hasRead` on an all-users `READ` grant and `hasWrite` on an all-users `WRITE`
grant. -/
def s3GrantScan : List S3Grant → Bool → Bool → Bool × Bool
  | [], hasRead, hasWrite => (hasRead, hasWrite)
  | g :: rest, hasRead, hasWrite =>
    if g.granteeURI = s3AllUsersURI then
      if g.permission = ("READ") then s3GrantScan rest true hasWrite
      else if g.permission = ("WRITE") then s3GrantScan rest hasRead true
      else s3GrantScan rest hasRead hasWrite
    else s3GrantScan rest hasRead hasWrite

namespace storageS3

/-- `storageS3.GetVisibility` from storage_s3.go, as a function of the
`GetObjectAcl` result: a failed ACL fetch returns `("", err)`; otherwise
read+write grants map to public-read-write and a read grant to public-read,
and in the remaining branch the code executes `return "", err` where `err` is
the nil error of the successful fetch, i.e. it returns `("", none)`. -/
def GetVisibility (aclResult : Except String (List S3Grant)) : String × Option String :=
  match aclResult with
  | .error e => (("" : String), some e)
  | .ok grants =>
    let rw := s3GrantScan grants false false
    if rw.1 && rw.2 then (ObjectPublicReadWrite, none)
    else if rw.1 then (ObjectPublicRead, none)
    else (("" : String), none)

end storageS3

/-! ## Temporary-URL expiry floors (storage_s3.go, storage_oss.go)

Durations are modeled as `Int` nanoseconds, matching Go's `time.Duration`. -/

/-- `s3SignedURLExpire` from storage_s3.go: `24 * time.Hour` in nanoseconds. -/
def s3SignedURLExpire : Int := 24 * 60 * 60 * 1000000000

/-- `ossSignedURLExpire` from storage_oss.go: `1 * time.Minute` in nanoseconds. -/
def ossSignedURLExpire : Int := 60 * 1000000000

namespace storageS3

/-- The expiry actually passed to `req.Presign` by `storageS3.TemporaryURL`:
a requested expiry below `s3SignedURLExpire` is replaced by it. -/
def TemporaryURLExpire (expireIn : Int) : Int :=
  if expireIn < s3SignedURLExpire then s3SignedURLExpire else expireIn

/-- The object key passed to `GetObjectRequest` by `storageS3.TemporaryURL`:
the raw `objectPath`; this operation never calls `cleanS3ObjectPath`. -/
def TemporaryURLKey (objectPath : String) : String :=
  objectPath

/-- The object key passed to `GetObjectAcl` by `storageS3.GetVisibility`:
the raw `objectPath`; this operation never calls `cleanS3ObjectPath`. -/
def GetVisibilityKey (objectPath : String) : String :=
  objectPath

end storageS3

namespace storageAlibabaOSS

/-- The effective expiry used by `storageAlibabaOSS.TemporaryURL`:
a requested expiry below `ossSignedURLExpire` is replaced by it. -/
def TemporaryURLExpire (expireIn : Int) : Int :=
  if expireIn < ossSignedURLExpire then ossSignedURLExpire else expireIn

/-- `expireInSec` of `storageAlibabaOSS.TemporaryURL`: the effective expiry
divided by `time.Second`, as passed to `bucket.SignURL`. -/
def TemporaryURLExpireSec (expireIn : Int) : Int :=
  TemporaryURLExpire expireIn / 1000000000

/-- The object key passed to `bucket.SignURL` by
`storageAlibabaOSS.TemporaryURL`: the raw `objectPath`; this operation never
calls `cleanOSSObjectPath`. -/
def TemporaryURLKey (objectPath : String) : String :=
  objectPath

/-- The object keys passed to the remote store by `storageAlibabaOSS.Delete`:
no call for an empty argument list, the cleaned path for a single delete, and
in the bulk branch the raw `objectPaths` — the function builds `cleanedPaths`
but then calls `DeleteObjects(objectPaths)` with the original, uncleaned
slice. -/
def DeleteKeys : List String → List String
  | [] => []
  | [objectPath] => [cleanOSSObjectPath objectPath]
  | objectPaths => objectPaths

end storageAlibabaOSS

/-! ## Local dual-tree backend (storage_local.go)

The two directory trees are modeled explicitly: the private tree as an
association list from object key to file content and the public tree as the
list of keys that have a link entry.  Keys are stored in cleaned form: every
filesystem access in storage_local.go goes through
`filepath.Join(baseDir, objectPath)`, under which two object paths denote the
same file exactly when their cleaned forms agree (for paths that stay under
the base directory; escaping paths are the subject of the normalizer theorems).
The helpers `isFileExists` and `mkdirIfNotExists` are called by
storage_local.go but their bodies are not part of the sources; per the spec
("existence of a same-relative-path entry under the public root means public",
section 4.3) `isFileExists` is modeled as membership of the tree and directory
creation as a no-op (the model tracks files only).  Symbolic-link creation
(`os.Symlink`, the linux branch of `makeObjectPublic`) succeeds whether or not
the link target exists. -/

/-- The key under which an object path is stored in a tree. -/
def localKey (objectPath : String) : String :=
  goPathClean objectPath

/-- The two filesystem trees of the local backend. -/
structure LocalFS where
  priv : List (String × String)
  pub : List String
deriving DecidableEq

/-- Association-list lookup for the private tree. -/
def lookupKV : List (String × String) → String → Option String
  | [], _ => none
  | (k, v) :: rest, key => if k = key then some v else lookupKV rest key

/-- Removing a key from the private tree. -/
def eraseKV : List (String × String) → String → List (String × String)
  | [], _ => []
  | (k, v) :: rest, key => if k = key then eraseKV rest key else (k, v) :: eraseKV rest key

/-- Removing a key from the public tree. -/
def erasePub : List String → String → List String
  | [], _ => []
  | s :: rest, key => if s = key then erasePub rest key else s :: erasePub rest key

/-- Configuration of the local backend relevant to URL building: the
`publicBaseURL` after `url.Parse`, split into its scheme-plus-host part and its
path component (`u.Path`).  `URL` sets `u.Path = path.Join(u.Path, objectPath)`
and renders the URL, i.e. concatenates the host part with the joined path. -/
structure LocalCfg where
  publicBaseURLHost : String
  publicBaseURLPath : String
deriving DecidableEq

namespace storageLocalFile

/-- `storageLocalFile.makeObjectPublic` from storage_local.go (linux branch):
parent directories of the public path are created, a stale public-tree entry is
removed, and a symlink to the private-tree path of the same key is created.
`os.Symlink` does not require the target to exist, so the operation succeeds
regardless of the private tree. -/
def makeObjectPublic (fs : LocalFS) (objectPath : String) : LocalFS × Option String :=
  let k := localKey objectPath
  ({ fs with pub := k :: erasePub fs.pub k }, none)

/-- `storageLocalFile.Put` from storage_local.go: creates parent directories,
creates the private-tree file and copies the source into it (`written` is the
content transferred by `io.Copy`, possibly partial, and `copyErr` is the error
`io.Copy` returned); for public visibility the function returns
`makeObjectPublic` (note: discarding `copyErr`), otherwise it returns `copyErr`. -/
def Put (fs : LocalFS) (objectPath : String) (written : String)
    (copyErr : Option String) (visibility : String) : LocalFS × Option String :=
  let k := localKey objectPath
  let fs1 : LocalFS := { fs with priv := (k, written) :: eraseKV fs.priv k }
  if visibility = ObjectPublicRead ∨ visibility = ObjectPublicReadWrite then
    makeObjectPublic fs1 objectPath
  else
    (fs1, copyErr)

/-- One iteration of `storageLocalFile.Delete`: the public-tree entry is
removed if present, then the private-tree entry is removed if present
(removing an existing entry succeeds). -/
def deleteOne (fs : LocalFS) (objectPath : String) : LocalFS :=
  let k := localKey objectPath
  let fs1 : LocalFS :=
    if k ∈ fs.pub then { fs with pub := erasePub fs.pub k } else fs
  if (lookupKV fs1.priv k).isSome then { fs1 with priv := eraseKV fs1.priv k } else fs1

/-- `storageLocalFile.Delete` from storage_local.go: deletes each given path
from both trees; absence in a tree is not an error. -/
def Delete (fs : LocalFS) (objectPaths : List String) : LocalFS × Option String :=
  (objectPaths.foldl deleteOne fs, none)

/-- `storageLocalFile.Copy` from storage_local.go: opens the private-tree
source (an absent source is an open error and leaves the trees unchanged) and
writes its content to the private-tree destination; the public tree is not
touched. -/
def Copy (fs : LocalFS) (srcObjectPath dstObjectPath : String) : LocalFS × Option String :=
  match lookupKV fs.priv (localKey srcObjectPath) with
  | none => (fs, some ("open source failed"))
  | some content =>
    let k := localKey dstObjectPath
    ({ fs with priv := (k, content) :: eraseKV fs.priv k }, none)

/-- `storageLocalFile.SetVisibility` from storage_local.go: private removes an
existing public-tree entry; the two public visibilities perform
`makeObjectPublic` when no public-tree entry exists; any other visibility is an
input-validation error. -/
def SetVisibility (fs : LocalFS) (objectPath visibility : String) : LocalFS × Option String :=
  let k := localKey objectPath
  if visibility = ObjectPrivate then
    if k ∈ fs.pub then ({ fs with pub := erasePub fs.pub k }, none)
    else (fs, none)
  else if visibility = ObjectPublicRead ∨ visibility = ObjectPublicReadWrite then
    if k ∈ fs.pub then (fs, none)
    else makeObjectPublic fs objectPath
  else (fs, some (("[local-storage] err invalid object visibility: ") ++ visibility))

/-- `storageLocalFile.GetVisibility` from storage_local.go: a public-tree entry
means public-read, else a private-tree entry means private, else the object is
not found. -/
def GetVisibility (fs : LocalFS) (objectPath : String) : String × Option String :=
  let k := localKey objectPath
  if k ∈ fs.pub then (ObjectPublicRead, none)
  else if (lookupKV fs.priv k).isSome then (ObjectPrivate, none)
  else (("" : String),
    some (("[local-storage] err get visibility, object not found: ") ++ objectPath))

/-- `storageLocalFile.URL` from storage_local.go: an empty object path returns
`("", nil)`; otherwise a missing public-tree entry is a not-found error, and
otherwise the URL is the public base URL with the object path joined onto its
path component. -/
def URL (cfg : LocalCfg) (fs : LocalFS) (objectPath : String) : String × Option String :=
  if objectPath = "" then (("" : String), none)
  else if localKey objectPath ∉ fs.pub then
    (("" : String), some ("[local-storage] file not found in given public path"))
  else (cfg.publicBaseURLHost ++ goPathJoin [cfg.publicBaseURLPath, objectPath], none)

end storageLocalFile

/-! ## Operation sequences on the local backend (for the dual-tree invariant) -/

/-- One local-backend operation (the operations that mutate the trees). -/
inductive LocalOp where
  | put (objectPath written : String) (copyErr : Option String) (visibility : String)
  | setVis (objectPath visibility : String)
  | del (objectPaths : List String)
  | copy (srcObjectPath dstObjectPath : String)

/-- Applying one operation to the trees. -/
def applyOp (fs : LocalFS) : LocalOp → LocalFS × Option String
  | .put p w ce v => storageLocalFile.Put fs p w ce v
  | .setVis p v => storageLocalFile.SetVisibility fs p v
  | .del ps => storageLocalFile.Delete fs ps
  | .copy s d => storageLocalFile.Copy fs s d

/-- Running a sequence of operations (each operation's state is kept whether or
not it reported an error, as on a real filesystem). -/
def runOps (fs : LocalFS) : List LocalOp → LocalFS
  | [] => fs
  | op :: rest => runOps (applyOp fs op).1 rest

/-- The dual-tree invariant: every public-tree entry has a private-tree entry
with the same relative path as its link target. -/
def dualTreeInv (fs : LocalFS) : Prop :=
  ∀ k ∈ fs.pub, (lookupKV fs.priv k).isSome = true

instance (fs : LocalFS) : Decidable (dualTreeInv fs) := by
  unfold dualTreeInv; infer_instance

/-- Guard under which one operation keeps the dual-tree invariant: making an
object public requires the object to have a private-tree entry (the code does
not check this; the guard is the content of the amended claim). -/
def opSafe (fs : LocalFS) : LocalOp → Bool
  | .setVis p v =>
    if v = ObjectPublicRead ∨ v = ObjectPublicReadWrite then
      (lookupKV fs.priv (localKey p)).isSome
    else true
  | _ => true

/-- `opSafe` holding at every step of a run. -/
def opsSafe : LocalFS → List LocalOp → Bool
  | _, [] => true
  | fs, op :: rest => opSafe fs op && opsSafe (applyOp fs op).1 rest

/-! # Helper lemmas -/

/-- Unfolding lemma for `lookupKV` on a cons cell. -/
theorem lookupKV_cons (a b key : String) (rest : List (String × String)) :
    lookupKV ((a, b) :: rest) key = if a = key then some b else lookupKV rest key := rfl

/-- Removing one key from the private tree does not change the lookup of any
other key. -/
theorem lookupKV_eraseKV_ne (l : List (String × String)) (key k : String)
    (h : k ≠ key) : lookupKV (eraseKV l key) k = lookupKV l k := by
  induction l with
  | nil => rfl
  | cons e rest ih =>
    obtain ⟨a, b⟩ := e
    unfold eraseKV
    by_cases hk : a = key
    · rw [if_pos hk, ih, lookupKV_cons]
      rw [if_neg (fun hh => h (hk ▸ hh).symm)]
    · rw [if_neg hk, lookupKV_cons, lookupKV_cons]
      by_cases ha : a = k
      · rw [if_pos ha, if_pos ha]
      · rw [if_neg ha, if_neg ha, ih]

/-- Lookup of a freshly inserted key. -/
theorem lookupKV_insert_self (l : List (String × String)) (k v : String) :
    lookupKV ((k, v) :: eraseKV l k) k = some v := by
  rw [lookupKV_cons, if_pos rfl]

/-- Lookup after inserting a different key. -/
theorem lookupKV_insert_ne (l : List (String × String)) (key k v : String)
    (h : k ≠ key) : lookupKV ((key, v) :: eraseKV l key) k = lookupKV l k := by
  rw [lookupKV_cons, if_neg (fun hh => h hh.symm), lookupKV_eraseKV_ne l key k h]

/-- Membership in the public tree after removing one key. -/
theorem mem_erasePub (l : List String) (key k : String) :
    k ∈ erasePub l key ↔ k ∈ l ∧ k ≠ key := by
  induction l with
  | nil => simp [erasePub]
  | cons s rest ih =>
    unfold erasePub
    by_cases hs : s = key
    · rw [if_pos hs, ih]
      subst hs
      constructor
      · rintro ⟨h1, h2⟩
        exact ⟨List.mem_cons_of_mem _ h1, h2⟩
      · rintro ⟨h1, h2⟩
        rcases List.mem_cons.mp h1 with h1 | h1
        · exact absurd h1 h2
        · exact ⟨h1, h2⟩
    · rw [if_neg hs]
      constructor
      · intro hmem
        rcases List.mem_cons.mp hmem with h1 | h1
        · subst h1
          exact ⟨List.mem_cons_self _ _, fun hh => hs hh⟩
        · obtain ⟨h2, h3⟩ := ih.mp h1
          exact ⟨List.mem_cons_of_mem _ h2, h3⟩
      · rintro ⟨h1, h2⟩
        rcases List.mem_cons.mp h1 with h3 | h3
        · subst h3
          exact List.mem_cons_self _ _
        · exact List.mem_cons_of_mem _ (ih.mpr ⟨h3, h2⟩)

/-! # Claim theorems -/

/-- C1, counterexample, refuting the claim in two independent ways.  First,
normalization does not neutralize leading `..` segments: `cleanS3ObjectPath`
maps `../secret` to the key `../secret`, which begins with a `..` segment and
thus names a location above the bucket root, and on the local backend the file
actually opened for object path `../../../etc/passwd` under the private base
directory `storage-test/private` is `../etc/passwd`, which lies above the
configured base directory (above the working directory, even).  Second, not
every backend operation normalizes at all: the S3 temporary-url and
get-visibility operations and the OSS temporary-url operation pass the raw
client path as the key, and the OSS bulk-delete branch passes the raw path
list (its cleaned list is computed and discarded), so for `dir/../x` the key
these operations use is `dir/../x` while the normalized key is `x`. -/
theorem c1_counterexample :
    (cleanS3ObjectPath ("../secret") = ("../secret") ∧
      localFilePath ("storage-test/private") ("../../../etc/passwd") = ("../etc/passwd")) ∧
    (storageS3.TemporaryURLKey ("dir/../x") = ("dir/../x") ∧
      storageS3.GetVisibilityKey ("dir/../x") = ("dir/../x") ∧
      storageAlibabaOSS.TemporaryURLKey ("dir/../x") = ("dir/../x") ∧
      cleanS3ObjectPath ("dir/../x") = ("x")) ∧
    (storageAlibabaOSS.DeleteKeys [("dir/../x"), ("a/./b")] = [("dir/../x"), ("a/./b")] ∧
      [cleanOSSObjectPath ("dir/../x"), cleanOSSObjectPath ("a/./b")] = [("x"), ("a/b")]) := by
  decide

/-- C2, evaluation at the failing input: a local `Put` with public-read
visibility whose source stream fails mid-read (after transferring partial
content) returns a nil error and creates a public-tree entry at the
destination key — the `io.Copy` error is discarded because the public branch
returns `makeObjectPublic`'s result. -/
theorem c2_local_put_swallows_read_error :
    storageLocalFile.Put { priv := [], pub := [] } ("x.txt") ("parti")
        (some ("read: connection reset")) ObjectPublicRead
      = ({ priv := [(("x.txt"), ("parti"))], pub := [("x.txt")] }, none) := by
  decide

/-- C6, counterexample: from empty trees, the single operation
`set-visibility("a", public-read)` succeeds (nil error) and reaches a state
whose public tree has an entry with no private-tree link target — on linux,
`os.Symlink` creates the dangling public-tree link without checking that the
private-tree file exists. -/
theorem c6_counterexample :
    (applyOp { priv := [], pub := [] } (LocalOp.setVis ("a") ObjectPublicRead)).2 = none ∧
    ¬ dualTreeInv (runOps { priv := [], pub := [] } [LocalOp.setVis ("a") ObjectPublicRead]) := by
  decide

/-- C8, counterexample: for the empty object path the local `URL` returns
`("", nil)` even though no public-tree entry exists at that key (the public
tree is empty), so the advertised "error iff no public-tree entry" equivalence
fails at the empty key. -/
theorem c8_counterexample :
    storageLocalFile.URL
        { publicBaseURLHost := ("http://localhost:8000"), publicBaseURLPath := ("/files") }
        { priv := [], pub := [] } ("")
      = (("" : String), none) ∧
    ({ priv := [], pub := [] } : LocalFS).pub = [] := by
  decide

/-- C9, evaluation at the failing input: when the fetched ACL carries only an
all-users WRITE grant (and likewise when it carries no all-users grant at all),
`storageS3.GetVisibility` returns the empty visibility together with a nil
error — the final branch executes `return "", err` with the nil `err` of the
successful fetch instead of an input-validation error. -/
theorem c9_getvisibility_empty_with_nil_error :
    storageS3.GetVisibility
        (.ok [{ granteeURI := s3AllUsersURI, permission := ("WRITE") }])
      = (("" : String), none) ∧
    storageS3.GetVisibility (.ok []) = (("" : String), none) := by
  decide

/-- C10: both remote backends' temporary-url operations use an effective expiry
equal to the maximum of the requested duration and the backend's floor —
24 hours (`s3SignedURLExpire`) for S3 and 1 minute (`ossSignedURLExpire`) for
OSS; a requested expiry below the floor is silently raised to the floor. -/
theorem c10_temporary_url_expiry_floor (expireIn : Int) :
    storageS3.TemporaryURLExpire expireIn = max expireIn s3SignedURLExpire ∧
    storageAlibabaOSS.TemporaryURLExpire expireIn = max expireIn ossSignedURLExpire := by
  constructor
  · unfold storageS3.TemporaryURLExpire
    rcases lt_or_le expireIn s3SignedURLExpire with h | h
    · rw [if_pos h, max_eq_right h.le]
    · rw [if_neg (not_lt.mpr h), max_eq_left h]
  · unfold storageAlibabaOSS.TemporaryURLExpire
    rcases lt_or_le expireIn ossSignedURLExpire with h | h
    · rw [if_pos h, max_eq_right h.le]
    · rw [if_neg (not_lt.mpr h), max_eq_left h]

/-- C5: for any visibility value outside the three recognized ones, both the
S3 and the OSS `Put` return the input-validation error with an empty remote
event trace — no multipart session is created and no `PutObject` is issued. -/
theorem c5_invalid_visibility_no_remote_call (env : S3Env) (objectPath : String)
    (source : List ReadRes) (putObjectResult : Option String) (visibility : String)
    (h1 : visibility ≠ ObjectPrivate) (h2 : visibility ≠ ObjectPublicRead)
    (h3 : visibility ≠ ObjectPublicReadWrite) :
    storageS3.Put env objectPath source visibility
      = ([], some (("err invalid object visibility: ") ++ visibility)) ∧
    storageAlibabaOSS.Put putObjectResult objectPath visibility
      = ([], some (("err invalid object visibility: ") ++ visibility)) := by
  constructor
  · unfold storageS3.Put storageS3.getS3ACLOrError
    rw [if_neg h2, if_neg h3, if_neg h1]
  · unfold storageAlibabaOSS.Put getACLOSSOrError
    rw [if_neg h2, if_neg h3, if_neg h1]

/-- Witness for C5 at the unrecognized visibility value `public`. -/
theorem c5_invalid_visibility_no_remote_call_witness :
    (("public") ≠ ObjectPrivate) ∧ (("public") ≠ ObjectPublicRead) ∧
    (("public") ≠ ObjectPublicReadWrite) ∧
    (storageS3.Put (envOk (fun _ => ("t"))) ("k") [] ("public")
        = ([], some (("err invalid object visibility: ") ++ ("public"))) ∧
      storageAlibabaOSS.Put none ("k") ("public")
        = ([], some (("err invalid object visibility: ") ++ ("public")))) :=
  ⟨by decide, by decide, by decide,
    c5_invalid_visibility_no_remote_call (envOk (fun _ => ("t"))) ("k") [] none ("public")
      (by decide) (by decide) (by decide)⟩

/-- C4: part submission is retried with a fixed 2-second inter-attempt delay up
to the bound of `maxRetry = 3` attempts.  With a backend that fails the first
two attempts and succeeds on the third, the part and the whole upload complete
(the completion call receives the part and the returned error is nil); with a
backend that fails all three attempts, the session is aborted and the last
underlying submission error `e3` is returned to the caller. -/
theorem c4_retry_bound (e1 e2 e3 t objectPath : String) (sz : Nat) (h : 0 < sz) :
    storageS3.Put (envRetry e1 e2 (.ok t)) objectPath (readsOf [sz]) ObjectPrivate
      = ([.createCalled (cleanS3ObjectPath objectPath), .uploadAttempt 1 sz 0,
          .sleptRetryDelay 2, .uploadAttempt 1 sz 1, .sleptRetryDelay 2,
          .uploadAttempt 1 sz 2, .completeCalled [some (1, t)]], none) ∧
    storageS3.Put (envRetry e1 e2 (.error e3)) objectPath (readsOf [sz]) ObjectPrivate
      = ([.createCalled (cleanS3ObjectPath objectPath), .uploadAttempt 1 sz 0,
          .sleptRetryDelay 2, .uploadAttempt 1 sz 1, .sleptRetryDelay 2,
          .uploadAttempt 1 sz 2, .abortCalled], some e3) := by
  have hne : sz ≠ 0 := Nat.pos_iff_ne_zero.mp h
  constructor <;>
    simp [storageS3.Put, storageS3.getS3ACLOrError, storageS3.putLoop, readsOf, envRetry,
      uploadMultipart, maxRetry, hne, ObjectPrivate, ObjectPublicRead, ObjectPublicReadWrite]

/-- Witness for C4 at a concrete 5 MiB chunk and concrete error strings. -/
theorem c4_retry_bound_witness :
    0 < 5242880 ∧
    (storageS3.Put (envRetry ("err-a") ("err-b") (.ok ("etag-1"))) ("dir/a.bin")
        (readsOf [5242880]) ObjectPrivate
      = ([.createCalled (cleanS3ObjectPath ("dir/a.bin")), .uploadAttempt 1 5242880 0,
          .sleptRetryDelay 2, .uploadAttempt 1 5242880 1, .sleptRetryDelay 2,
          .uploadAttempt 1 5242880 2, .completeCalled [some (1, ("etag-1"))]], none) ∧
    storageS3.Put (envRetry ("err-a") ("err-b") (.error ("err-c"))) ("dir/a.bin")
        (readsOf [5242880]) ObjectPrivate
      = ([.createCalled (cleanS3ObjectPath ("dir/a.bin")), .uploadAttempt 1 5242880 0,
          .sleptRetryDelay 2, .uploadAttempt 1 5242880 1, .sleptRetryDelay 2,
          .uploadAttempt 1 5242880 2, .abortCalled], some ("err-c"))) :=
  ⟨by decide,
    c4_retry_bound ("err-a") ("err-b") ("err-c") ("etag-1") ("dir/a.bin") 5242880 (by decide)⟩

/-- On an environment whose `UploadPart` succeeds immediately with tag `e part`,
the chunk loop of `storageS3.Put` submits the chunks as parts numbered
consecutively from `partNumber` and completes with the accumulated descriptor
list extended in submission order. -/
theorem putLoop_envOk (e : Nat → String) (chunks : List Nat) :
    ∀ (partNumber : Nat) (parts : List (Option (Nat × String))),
    (∀ c ∈ chunks, 0 < c) →
    storageS3.putLoop (envOk e) (readsOf chunks) partNumber parts
      = ((numbered partNumber chunks).map (fun pc => S3Event.uploadAttempt pc.1 pc.2 0)
          ++ [S3Event.completeCalled
                (parts ++ (numbered partNumber chunks).map (fun pc => some (pc.1, e pc.1)))],
         none) := by
  induction chunks with
  | nil =>
    intro pn parts _
    simp [readsOf, storageS3.putLoop, numbered, envOk]
  | cons c rest ih =>
    intro pn parts hpos
    have hc : c ≠ 0 := Nat.pos_iff_ne_zero.mp (hpos c (List.mem_cons_self _ _))
    have hrest : ∀ x ∈ rest, 0 < x := fun x hx => hpos x (List.mem_cons_of_mem _ hx)
    have hloop := ih (pn + 1) (parts ++ [some (pn, e pn)]) hrest
    have hstep : storageS3.putLoop (envOk e) (readsOf (c :: rest)) pn parts
        = (S3Event.uploadAttempt pn c 0
            :: (storageS3.putLoop (envOk e) (readsOf rest) (pn + 1)
                  (parts ++ [some (pn, e pn)])).1,
           (storageS3.putLoop (envOk e) (readsOf rest) (pn + 1)
              (parts ++ [some (pn, e pn)])).2) := by
      simp [readsOf, storageS3.putLoop, uploadMultipart, maxRetry, envOk, hc]
    rw [hstep, hloop]
    simp [numbered]

/-- C3: on a well-behaved source delivering the given non-empty chunks and an
environment whose submissions succeed, `storageS3.Put` submits the chunks as
parts numbered consecutively from 1 with no gaps (the trace lists one
submission per chunk, in order), never submits a zero-length part (the
zero-length read terminates the loop before any submission), and passes the
completed-part descriptors (part number and integrity tag) to the completion
call exactly in submission order; in particular a 12 MB source read through the
5 MiB part buffer yields exactly the chunks 5 MiB, 5 MiB, 2 MiB, i.e. 3 parts
numbered 1, 2, 3. -/
theorem c3_parts_in_order (e : Nat → String) (objectPath : String)
    (chunks : List Nat) (hpos : ∀ c ∈ chunks, 0 < c) :
    storageS3.Put (envOk e) objectPath (readsOf chunks) ObjectPrivate
      = (S3Event.createCalled (cleanS3ObjectPath objectPath)
          :: (numbered 1 chunks).map (fun pc => S3Event.uploadAttempt pc.1 pc.2 0)
          ++ [S3Event.completeCalled
                ((numbered 1 chunks).map (fun pc => some (pc.1, e pc.1)))],
         none) ∧
    s3Chunks (12 * 1024 * 1024) = [5242880, 5242880, 2097152] ∧
    (numbered 1 (s3Chunks (12 * 1024 * 1024))).map Prod.fst = [1, 2, 3] := by
  refine ⟨?_, by decide, by decide⟩
  have hloop := putLoop_envOk e chunks 1 [] hpos
  have hput : storageS3.Put (envOk e) objectPath (readsOf chunks) ObjectPrivate
      = (S3Event.createCalled (cleanS3ObjectPath objectPath)
          :: (storageS3.putLoop (envOk e) (readsOf chunks) 1 []).1,
         (storageS3.putLoop (envOk e) (readsOf chunks) 1 []).2) := rfl
  rw [hput, hloop]
  simp

/-- Witness for C3 on the 12 MB source of the spec scenario. -/
theorem c3_parts_in_order_witness :
    (∀ c ∈ s3Chunks (12 * 1024 * 1024), 0 < c) ∧
    (storageS3.Put (envOk (fun _ => ("etag"))) ("dir/a.bin")
        (readsOf (s3Chunks (12 * 1024 * 1024))) ObjectPrivate
      = (S3Event.createCalled (cleanS3ObjectPath ("dir/a.bin"))
          :: (numbered 1 (s3Chunks (12 * 1024 * 1024))).map
              (fun pc => S3Event.uploadAttempt pc.1 pc.2 0)
          ++ [S3Event.completeCalled
                ((numbered 1 (s3Chunks (12 * 1024 * 1024))).map
                  (fun pc => some (pc.1, ("etag"))))],
         none) ∧
      s3Chunks (12 * 1024 * 1024) = [5242880, 5242880, 2097152] ∧
      (numbered 1 (s3Chunks (12 * 1024 * 1024))).map Prod.fst = [1, 2, 3]) :=
  ⟨by decide,
    c3_parts_in_order (fun _ => ("etag")) ("dir/a.bin")
      (s3Chunks (12 * 1024 * 1024)) (by decide)⟩

/-- The state after a local `Put` with a public visibility: the private entry
is written and the public-tree link is created. -/
theorem localPut_fst_public (fs : LocalFS) (p w : String) (ce : Option String)
    (v : String) (hv : v = ObjectPublicRead ∨ v = ObjectPublicReadWrite) :
    (storageLocalFile.Put fs p w ce v).1
      = { priv := (localKey p, w) :: eraseKV fs.priv (localKey p),
          pub := localKey p :: erasePub fs.pub (localKey p) } := by
  unfold storageLocalFile.Put storageLocalFile.makeObjectPublic
  rw [if_pos hv]

/-- The state after a local `Put` with any non-public visibility: only the
private entry is written. -/
theorem localPut_fst_other (fs : LocalFS) (p w : String) (ce : Option String)
    (v : String) (hv : ¬(v = ObjectPublicRead ∨ v = ObjectPublicReadWrite)) :
    (storageLocalFile.Put fs p w ce v).1
      = { priv := (localKey p, w) :: eraseKV fs.priv (localKey p), pub := fs.pub } := by
  unfold storageLocalFile.Put
  rw [if_neg hv]

/-- The state after `set-visibility(private)`: an existing public-tree entry is
removed and nothing else changes. -/
theorem setVis_fst_private (fs : LocalFS) (p : String) :
    (storageLocalFile.SetVisibility fs p ObjectPrivate).1
      = if localKey p ∈ fs.pub then { priv := fs.priv, pub := erasePub fs.pub (localKey p) }
        else fs := by
  unfold storageLocalFile.SetVisibility
  rw [if_pos rfl]
  by_cases hm : localKey p ∈ fs.pub
  · rw [if_pos hm, if_pos hm]
  · rw [if_neg hm, if_neg hm]

/-- The state after `set-visibility` with a public visibility: the public-tree
link is created when absent and nothing else changes. -/
theorem setVis_fst_public (fs : LocalFS) (p v : String)
    (hv : v = ObjectPublicRead ∨ v = ObjectPublicReadWrite) :
    (storageLocalFile.SetVisibility fs p v).1
      = if localKey p ∈ fs.pub then fs
        else { priv := fs.priv, pub := localKey p :: erasePub fs.pub (localKey p) } := by
  have hvne : v ≠ ObjectPrivate := by
    rcases hv with h | h <;> subst h <;> decide
  unfold storageLocalFile.SetVisibility storageLocalFile.makeObjectPublic
  rw [if_neg hvne, if_pos hv]
  by_cases hm : localKey p ∈ fs.pub
  · rw [if_pos hm, if_pos hm]
  · rw [if_neg hm, if_neg hm]

/-- A local `Put` preserves the dual-tree invariant. -/
theorem dualTreeInv_Put (fs : LocalFS) (p w : String) (ce : Option String)
    (v : String) (hInv : dualTreeInv fs) :
    dualTreeInv (storageLocalFile.Put fs p w ce v).1 := by
  by_cases hv : v = ObjectPublicRead ∨ v = ObjectPublicReadWrite
  · rw [localPut_fst_public fs p w ce v hv]
    intro k' hk'
    rcases List.mem_cons.mp hk' with h1 | h1
    · subst h1
      rw [lookupKV_insert_self]
      rfl
    · obtain ⟨h2, h3⟩ := (mem_erasePub _ _ _).mp h1
      rw [lookupKV_insert_ne _ _ _ _ h3]
      exact hInv k' h2
  · rw [localPut_fst_other fs p w ce v hv]
    intro k' hk'
    by_cases he : k' = localKey p
    · subst he
      rw [lookupKV_insert_self]
      rfl
    · rw [lookupKV_insert_ne _ _ _ _ he]
      exact hInv k' hk'

/-- A local `SetVisibility` preserves the dual-tree invariant, provided a
public target key has a private-tree entry. -/
theorem dualTreeInv_SetVisibility (fs : LocalFS) (p v : String)
    (hInv : dualTreeInv fs)
    (hSafe : v = ObjectPublicRead ∨ v = ObjectPublicReadWrite →
      (lookupKV fs.priv (localKey p)).isSome = true) :
    dualTreeInv (storageLocalFile.SetVisibility fs p v).1 := by
  by_cases hpriv : v = ObjectPrivate
  · subst hpriv
    rw [setVis_fst_private]
    by_cases hm : localKey p ∈ fs.pub
    · rw [if_pos hm]
      intro k' hk'
      exact hInv k' ((mem_erasePub _ _ _).mp hk').1
    · rw [if_neg hm]
      exact hInv
  · by_cases hv : v = ObjectPublicRead ∨ v = ObjectPublicReadWrite
    · rw [setVis_fst_public fs p v hv]
      by_cases hm : localKey p ∈ fs.pub
      · rw [if_pos hm]
        exact hInv
      · rw [if_neg hm]
        intro k' hk'
        rcases List.mem_cons.mp hk' with h1 | h1
        · subst h1
          exact hSafe hv
        · exact hInv k' ((mem_erasePub _ _ _).mp h1).1
    · unfold storageLocalFile.SetVisibility
      rw [if_neg hpriv, if_neg hv]
      exact hInv

/-- One `deleteOne` step preserves the dual-tree invariant. -/
theorem dualTreeInv_deleteOne (fs : LocalFS) (p : String) (hInv : dualTreeInv fs) :
    dualTreeInv (storageLocalFile.deleteOne fs p) := by
  unfold storageLocalFile.deleteOne
  dsimp only
  by_cases h1 : localKey p ∈ fs.pub
  · rw [if_pos h1]
    by_cases h2 : (lookupKV fs.priv (localKey p)).isSome = true
    · rw [if_pos h2]
      intro k' hk'
      obtain ⟨h3, h4⟩ := (mem_erasePub _ _ _).mp hk'
      rw [lookupKV_eraseKV_ne _ _ _ h4]
      exact hInv k' h3
    · rw [if_neg h2]
      intro k' hk'
      exact hInv k' ((mem_erasePub _ _ _).mp hk').1
  · rw [if_neg h1]
    by_cases h2 : (lookupKV fs.priv (localKey p)).isSome = true
    · rw [if_pos h2]
      intro k' hk'
      by_cases h4 : k' = localKey p
      · subst h4
        exact absurd hk' h1
      · rw [lookupKV_eraseKV_ne _ _ _ h4]
        exact hInv k' hk'
    · rw [if_neg h2]
      exact hInv

/-- A local `Delete` preserves the dual-tree invariant. -/
theorem dualTreeInv_Delete (fs : LocalFS) (ps : List String) (hInv : dualTreeInv fs) :
    dualTreeInv (storageLocalFile.Delete fs ps).1 := by
  unfold storageLocalFile.Delete
  induction ps generalizing fs with
  | nil => exact hInv
  | cons p rest ih =>
    exact ih (storageLocalFile.deleteOne fs p) (dualTreeInv_deleteOne fs p hInv)

/-- A local `Copy` preserves the dual-tree invariant. -/
theorem dualTreeInv_Copy (fs : LocalFS) (src dst : String) (hInv : dualTreeInv fs) :
    dualTreeInv (storageLocalFile.Copy fs src dst).1 := by
  unfold storageLocalFile.Copy
  cases hsrc : lookupKV fs.priv (localKey src) with
  | none => exact hInv
  | some content =>
    intro k' hk'
    by_cases he : k' = localKey dst
    · subst he
      rw [lookupKV_insert_self]
      rfl
    · rw [lookupKV_insert_ne _ _ _ _ he]
      exact hInv k' hk'

/-- Any guarded local operation preserves the dual-tree invariant. -/
theorem dualTreeInv_applyOp (fs : LocalFS) (op : LocalOp) (hInv : dualTreeInv fs)
    (hSafe : opSafe fs op = true) : dualTreeInv (applyOp fs op).1 := by
  cases op with
  | put p w ce v => exact dualTreeInv_Put fs p w ce v hInv
  | setVis p v =>
    refine dualTreeInv_SetVisibility fs p v hInv (fun hv => ?_)
    simp only [opSafe] at hSafe
    rwa [if_pos hv] at hSafe
  | del ps => exact dualTreeInv_Delete fs ps hInv
  | copy s d => exact dualTreeInv_Copy fs s d hInv

/-- C6, amended: starting from any state satisfying the dual-tree invariant
(in particular from empty trees), every sequence of local-backend operations in
which each set-visibility to a public value targets a key that currently has a
private-tree entry (`opsSafe`) keeps the invariant in every reachable state:
each public-tree entry has a same-relative-path private-tree entry as its link
target.  (The other half of the invariant — a private-visibility object has no
public-tree entry — holds by construction: `GetVisibility` reports private only
after the public-tree membership test has failed.)  Without the guard the
invariant is violated by a set-visibility-to-public on a missing key. -/
theorem c6_dual_tree_invariant (fs : LocalFS) (ops : List LocalOp)
    (hInv : dualTreeInv fs) (hSafe : opsSafe fs ops = true) :
    dualTreeInv (runOps fs ops) := by
  induction ops generalizing fs with
  | nil => exact hInv
  | cons op rest ih =>
    unfold opsSafe at hSafe
    obtain ⟨h1, h2⟩ := Bool.and_eq_true_iff.mp hSafe
    exact ih (applyOp fs op).1 (dualTreeInv_applyOp fs op hInv h1) h2

/-- Witness for C6 on a concrete guarded operation sequence from empty trees. -/
theorem c6_dual_tree_invariant_witness :
    dualTreeInv { priv := [], pub := [] } ∧
    opsSafe { priv := [], pub := [] }
      [LocalOp.put ("a") ("hi") none ObjectPublicRead,
       LocalOp.setVis ("a") ObjectPrivate,
       LocalOp.setVis ("a") ObjectPublicRead,
       LocalOp.copy ("a") ("b"),
       LocalOp.del [("a"), ("b")]] = true ∧
    dualTreeInv (runOps { priv := [], pub := [] }
      [LocalOp.put ("a") ("hi") none ObjectPublicRead,
       LocalOp.setVis ("a") ObjectPrivate,
       LocalOp.setVis ("a") ObjectPublicRead,
       LocalOp.copy ("a") ("b"),
       LocalOp.del [("a"), ("b")]]) :=
  ⟨by decide, by decide,
    c6_dual_tree_invariant { priv := [], pub := [] }
      [LocalOp.put ("a") ("hi") none ObjectPublicRead,
       LocalOp.setVis ("a") ObjectPrivate,
       LocalOp.setVis ("a") ObjectPublicRead,
       LocalOp.copy ("a") ("b"),
       LocalOp.del [("a"), ("b")]] (by decide) (by decide)⟩

/-- A key is never a member of the public tree it was just erased from. -/
theorem not_mem_erasePub_self (l : List String) (k : String) : k ∉ erasePub l k :=
  fun hmem => ((mem_erasePub _ _ _).mp hmem).2 rfl

/-- Erasing the head key of the public tree. -/
theorem erasePub_cons_self (l : List String) (k : String) :
    erasePub (k :: l) k = erasePub l k := by
  show (if k = k then erasePub l k else k :: erasePub l k) = erasePub l k
  rw [if_pos rfl]

/-- C7: for any key with a private-tree entry, set-visibility to public-read
followed by set-visibility to private leaves a state in which get-visibility
reports private (with nil error), no public-tree entry remains at the key, and
the private tree is exactly as before (the removal step touches only the
public-tree entry). -/
theorem c7_public_private_roundtrip (fs : LocalFS) (p : String)
    (h : (lookupKV fs.priv (localKey p)).isSome = true) :
    storageLocalFile.GetVisibility
        ((storageLocalFile.SetVisibility
          ((storageLocalFile.SetVisibility fs p ObjectPublicRead).1) p ObjectPrivate).1) p
      = (ObjectPrivate, none) ∧
    localKey p ∉ ((storageLocalFile.SetVisibility
      ((storageLocalFile.SetVisibility fs p ObjectPublicRead).1) p ObjectPrivate).1).pub ∧
    ((storageLocalFile.SetVisibility
      ((storageLocalFile.SetVisibility fs p ObjectPublicRead).1) p ObjectPrivate).1).priv
      = fs.priv := by
  rw [setVis_fst_public fs p ObjectPublicRead (Or.inl rfl)]
  by_cases hm : localKey p ∈ fs.pub
  · rw [if_pos hm, setVis_fst_private fs p, if_pos hm]
    refine ⟨?_, not_mem_erasePub_self _ _, rfl⟩
    unfold storageLocalFile.GetVisibility
    dsimp only
    rw [if_neg (not_mem_erasePub_self fs.pub (localKey p)), if_pos h]
  · rw [if_neg hm, setVis_fst_private _ p]
    dsimp only
    rw [if_pos (List.mem_cons_self _ _), erasePub_cons_self]
    refine ⟨?_, not_mem_erasePub_self _ _, rfl⟩
    unfold storageLocalFile.GetVisibility
    dsimp only
    rw [if_neg (not_mem_erasePub_self _ _), if_pos h]

/-- Witness for C7 on a one-object private tree. -/
theorem c7_public_private_roundtrip_witness :
    (lookupKV ({ priv := [(("x.txt"), ("hi"))], pub := [] } : LocalFS).priv
      (localKey ("x.txt"))).isSome = true ∧
    (storageLocalFile.GetVisibility
        ((storageLocalFile.SetVisibility
          ((storageLocalFile.SetVisibility { priv := [(("x.txt"), ("hi"))], pub := [] }
            ("x.txt") ObjectPublicRead).1) ("x.txt") ObjectPrivate).1) ("x.txt")
      = (ObjectPrivate, none) ∧
    localKey ("x.txt") ∉ ((storageLocalFile.SetVisibility
      ((storageLocalFile.SetVisibility { priv := [(("x.txt"), ("hi"))], pub := [] }
        ("x.txt") ObjectPublicRead).1) ("x.txt") ObjectPrivate).1).pub ∧
    ((storageLocalFile.SetVisibility
      ((storageLocalFile.SetVisibility { priv := [(("x.txt"), ("hi"))], pub := [] }
        ("x.txt") ObjectPublicRead).1) ("x.txt") ObjectPrivate).1).priv
      = ({ priv := [(("x.txt"), ("hi"))], pub := [] } : LocalFS).priv) :=
  ⟨by decide,
    c7_public_private_roundtrip { priv := [(("x.txt"), ("hi"))], pub := [] } ("x.txt")
      (by decide)⟩

/-- C8, amended: for every non-empty key, the local `URL` returns a not-found
error exactly when no public-tree entry exists at the key, and with a
public-tree entry present it returns the configured public base URL with the
key joined onto its path component.  For the empty key the equivalence fails:
`URL` returns `("", nil)` without consulting the public tree. -/
theorem c8_url_not_found_iff (cfg : LocalCfg) (fs : LocalFS) (p : String)
    (h : p ≠ "") :
    ((storageLocalFile.URL cfg fs p).2.isSome = true ↔ localKey p ∉ fs.pub) ∧
    (localKey p ∈ fs.pub →
      storageLocalFile.URL cfg fs p
        = (cfg.publicBaseURLHost ++ goPathJoin [cfg.publicBaseURLPath, p], none)) := by
  unfold storageLocalFile.URL
  rw [if_neg h]
  by_cases hm : localKey p ∈ fs.pub
  · rw [if_neg (not_not_intro hm)]
    constructor
    · constructor
      · intro hfalse
        exact absurd hfalse (by simp)
      · intro hnot
        exact absurd hm hnot
    · intro _
      rfl
  · rw [if_pos hm]
    constructor
    · constructor
      · intro _
        exact hm
      · intro _
        rfl
    · intro hmem
      exact absurd hmem hm

/-- Witness for C8 on the spec's scenario state: `x.txt` public, base URL
`http://localhost:8000/files`. -/
theorem c8_url_not_found_iff_witness :
    (("x.txt") : String) ≠ ("") ∧
    (((storageLocalFile.URL
        { publicBaseURLHost := ("http://localhost:8000"), publicBaseURLPath := ("/files") }
        { priv := [(("x.txt"), ("hi"))], pub := [("x.txt")] } ("x.txt")).2.isSome = true
      ↔ localKey ("x.txt") ∉ ({ priv := [(("x.txt"), ("hi"))], pub := [("x.txt")] } : LocalFS).pub) ∧
    (localKey ("x.txt") ∈ ({ priv := [(("x.txt"), ("hi"))], pub := [("x.txt")] } : LocalFS).pub →
      storageLocalFile.URL
          { publicBaseURLHost := ("http://localhost:8000"), publicBaseURLPath := ("/files") }
          { priv := [(("x.txt"), ("hi"))], pub := [("x.txt")] } ("x.txt")
        = (("http://localhost:8000") ++ goPathJoin [("/files"), ("x.txt")], none))) :=
  ⟨by decide,
    c8_url_not_found_iff
      { publicBaseURLHost := ("http://localhost:8000"), publicBaseURLPath := ("/files") }
      { priv := [(("x.txt"), ("hi"))], pub := [("x.txt")] } ("x.txt") (by decide)⟩

/-- A non-`..` segment acts on the lazybuf independently of its content. -/
theorem cleanStep_ne_dotdot (r : Bool) (acc : List String) (s : String)
    (h : s ≠ ("..")) : cleanStep r acc s = acc ++ cleanStep r [] s := by
  unfold cleanStep
  by_cases h1 : s = "" ∨ s = "."
  · rw [if_pos h1, if_pos h1, List.append_nil]
  · rw [if_neg h1, if_neg h1, if_neg h, if_neg h]
    rfl

/-- Cleaning segments that contain no `..` never pops into the accumulator:
the fold from any accumulator is the accumulator followed by the fold from
the empty one. -/
theorem foldl_cleanStep_append (r : Bool) (segs : List String) :
    ∀ acc : List String, (("..") : String) ∉ segs →
    segs.foldl (cleanStep r) acc = acc ++ segs.foldl (cleanStep r) [] := by
  induction segs with
  | nil =>
    intro acc _
    rw [List.foldl_nil, List.foldl_nil, List.append_nil]
  | cons s rest ih =>
    intro acc h
    have hs : s ≠ ("..") := fun hh => h (hh ▸ List.mem_cons_self _ _)
    have hrest : (("..") : String) ∉ rest := fun hh => h (List.mem_cons_of_mem _ hh)
    rw [List.foldl_cons, List.foldl_cons, ih (cleanStep r acc s) hrest,
      ih (cleanStep r [] s) hrest, cleanStep_ne_dotdot r acc s hs, List.append_assoc]

/-- Cleaning segments that contain no `..` produces no `..` segment. -/
theorem not_dotdot_foldl (r : Bool) (segs : List String) :
    ∀ acc : List String, (("..") : String) ∉ segs → (("..") : String) ∉ acc →
    (("..") : String) ∉ segs.foldl (cleanStep r) acc := by
  induction segs with
  | nil =>
    intro acc _ hacc
    rwa [List.foldl_nil]
  | cons s rest ih =>
    intro acc h hacc
    have hs : s ≠ ("..") := fun hh => h (hh ▸ List.mem_cons_self _ _)
    have hrest : (("..") : String) ∉ rest := fun hh => h (List.mem_cons_of_mem _ hh)
    rw [List.foldl_cons]
    refine ih _ hrest ?_
    unfold cleanStep
    by_cases h1 : s = "" ∨ s = "."
    · rw [if_pos h1]
      exact hacc
    · rw [if_neg h1, if_neg hs]
      intro hmem
      rcases List.mem_append.mp hmem with h2 | h2
      · exact hacc h2
      · exact hs (List.mem_singleton.mp h2).symm

/-- C1, amended.  Every local-backend access resolves its key through
`filepath.Join` (separators and `.`/`..` segments lexically cleaned), and the
remote backends normalize with `path.Clean(filepath.ToSlash(...))` in every
operation except four: the S3 temporary-url and get-visibility operations, the
OSS temporary-url operation, and the OSS bulk-delete branch pass the raw,
un-normalized client path as the key (the last four conjuncts; the OSS
single-path delete does normalize).  For the operations that normalize, any
client path containing no `..` segment never resolves to a location above the
configured root: the local file path resolves to the base directory's cleaned
segments followed by the path's cleaned segments (so never above the base
directory), and the cleaned remote key contains no `..` segment.  Paths
containing `..` segments are only cleaned lexically; a `..` segment surviving
at the front of the cleaned key resolves above the configured root. -/
theorem c1_normalization_amended (baseDir objectPath : String)
    (h1 : (("..") : String) ∉ splitSlash objectPath)
    (h2 : (("..") : String) ∉ splitSlash (goToSlash objectPath)) :
    localFilePathSegs baseDir objectPath
      = goCleanSegs (isRooted baseDir) (splitSlash baseDir)
        ++ goCleanSegs (isRooted baseDir) (splitSlash objectPath) ∧
    (("..") : String) ∉ goCleanSegs (isRooted baseDir) (splitSlash objectPath) ∧
    (("..") : String) ∉ goPathCleanSegs (goToSlash objectPath) ∧
    storageS3.TemporaryURLKey objectPath = objectPath ∧
    storageS3.GetVisibilityKey objectPath = objectPath ∧
    storageAlibabaOSS.TemporaryURLKey objectPath = objectPath ∧
    storageAlibabaOSS.DeleteKeys [objectPath] = [cleanOSSObjectPath objectPath] := by
  refine ⟨?_, ?_, ?_, rfl, rfl, rfl, rfl⟩
  · unfold localFilePathSegs goCleanSegs
    rw [List.foldl_append]
    exact foldl_cleanStep_append _ _ _ h1
  · exact not_dotdot_foldl _ _ [] h1 (by simp)
  · unfold goPathCleanSegs goCleanSegs
    exact not_dotdot_foldl _ _ [] h2 (by simp)

/-- Witness for C1 on a benign object path under the test base directory. -/
theorem c1_normalization_amended_witness :
    (("..") : String) ∉ splitSlash ("user-files/sample.txt") ∧
    (("..") : String) ∉ splitSlash (goToSlash ("user-files/sample.txt")) ∧
    (localFilePathSegs ("storage-test/private") ("user-files/sample.txt")
      = goCleanSegs (isRooted ("storage-test/private"))
          (splitSlash ("storage-test/private"))
        ++ goCleanSegs (isRooted ("storage-test/private"))
          (splitSlash ("user-files/sample.txt")) ∧
    (("..") : String) ∉ goCleanSegs (isRooted ("storage-test/private"))
      (splitSlash ("user-files/sample.txt")) ∧
    (("..") : String) ∉ goPathCleanSegs (goToSlash ("user-files/sample.txt")) ∧
    storageS3.TemporaryURLKey ("user-files/sample.txt") = ("user-files/sample.txt") ∧
    storageS3.GetVisibilityKey ("user-files/sample.txt") = ("user-files/sample.txt") ∧
    storageAlibabaOSS.TemporaryURLKey ("user-files/sample.txt") = ("user-files/sample.txt") ∧
    storageAlibabaOSS.DeleteKeys [("user-files/sample.txt")]
      = [cleanOSSObjectPath ("user-files/sample.txt")]) :=
  ⟨by decide, by decide,
    c1_normalization_amended ("storage-test/private") ("user-files/sample.txt")
      (by decide) (by decide)⟩
